import Mathlib

/-!
Verification of the Lence query registry, secure SQL templating and source
catalog against the repository code.

Code embedded from:
- `src/lence/database.py` (Database.register_source, Database.execute_query)
- `src/lence/routes/query.py` (raw /query handler mounted by app.py)
- `src/lence/backend/sources.py` (legacy /query handler, /query/v2 secure handler)
- `src/lence/app.py` (create_app mounts the query router unconditionally)

The modules `lence/backend/query_registry.py` and `lence/backend/database.py`
are imported by `backend/sources.py` but are not present in the repository
tree; the parameter extractor, SQL interpolation and registry lookup are
therefore modelled from the spec (sections 4.1-4.3), as marked on each
definition.
-/

namespace Lence

/-- The single-quote character (code point 39), the delimiter of SQL string
literals. -/
def sq : Char := Char.ofNat 39

/-- Doubling of embedded single quotes: each quote in the input becomes two
quotes in the output. This is the escaping step of the spec's literal-safe
string encoding. -/
def doubleQuotes : List Char → List Char
  | [] => []
  | c :: cs => if c = sq then sq :: sq :: doubleQuotes cs else c :: doubleQuotes cs

/-- Modelled from the spec (section 4.3, string case; `backend/query_registry.py`
is absent from the tree): a string value is wrapped in single quotes with every
embedded single quote doubled. -/
def escapeString (v : String) : String :=
  String.mk (sq :: (doubleQuotes v.data ++ [sq]))

/-- SQL lexer for the body of a single-quoted string literal, after the opening
quote: a doubled quote contributes one quote to the value, a lone quote closes
the literal. Returns the literal value and the remaining input, or `none` when
the literal is unterminated. -/
def parseLitBody : List Char → List Char → Option (List Char × List Char)
  | _, [] => none
  | acc, c :: rest =>
    if c = sq then
      match rest with
      | [] => some (acc, [])
      | c2 :: rest2 =>
        if c2 = sq then parseLitBody (acc ++ [sq]) rest2 else some (acc, c2 :: rest2)
    else parseLitBody (acc ++ [c]) rest

/-- SQL lexer for one complete single-quoted string literal at the head of the
input: an opening quote followed by a terminated body. -/
def parseSqlLiteral : List Char → Option (List Char × List Char)
  | [] => none
  | c :: rest => if c = sq then parseLitBody [] rest else none

/-- Strips a literal sequence from the head of the input, returning the
remainder, or `none` when the input does not start with it. -/
def dropStart : List Char → List Char → Option (List Char)
  | [], cs => some cs
  | _ :: _, [] => none
  | p :: ps, c :: cs => if c = p then dropStart ps cs else none

/-- First character of a parameter name: `[A-Za-z_]`. -/
def isNameStart (c : Char) : Bool := c.isAlpha || c = Char.ofNat 95

/-- Subsequent characters of a parameter name: `[A-Za-z0-9_]`. -/
def isNameChar (c : Char) : Bool := c.isAlphanum || c = Char.ofNat 95

/-- Splits off the longest run of name characters at the head of the input. -/
def takeName : List Char → List Char × List Char
  | [] => ([], [])
  | c :: cs =>
    if isNameChar c then (c :: (takeName cs).1, (takeName cs).2) else ([], c :: cs)

/-- The opening delimiter of a placeholder token. -/
def openTok : List Char := "$\x7binputs.".data

/-- The closing delimiter of a placeholder token. -/
def closeTok : List Char := ".value\x7d".data

/-- Modelled from the spec (section 4.1; `backend/query_registry.py` is absent
from the tree): recognises a placeholder token at the head of the input, of the
exact shape dollar, open brace, `inputs.`, a name matching
`[A-Za-z_][A-Za-z0-9_]*`, `.value`, close brace. Returns the name and the
input remaining after the token, or `none` for malformed inner syntax, which
is left as literal text. -/
def parseToken (cs : List Char) : Option (List Char × List Char) :=
  match dropStart openTok cs with
  | none => none
  | some r1 =>
    match takeName r1 with
    | ([], _) => none
    | (c :: n, r2) =>
      if isNameStart c then
        match dropStart closeTok r2 with
        | none => none
        | some r3 => some (c :: n, r3)
      else none

/-- Modelled from the spec (section 4.1): the sequence of parameter names of
all placeholder tokens in the template, in occurrence order, with repeats.
The scan advances one character at a time; a token contains no dollar sign
after its first character, so no token starts strictly inside another and this
scan reports exactly the non-overlapping token occurrences. -/
def scanTokens : List Char → List String
  | [] => []
  | c :: cs =>
    match parseToken (c :: cs) with
    | some (n, _) => String.mk n :: scanTokens cs
    | none => scanTokens cs

/-- Removes repeated elements, keeping the first occurrence of each; `seen`
holds the elements already emitted. -/
def firstDedupAux (seen : List String) : List String → List String
  | [] => []
  | x :: xs =>
    if x ∈ seen then firstDedupAux seen xs else x :: firstDedupAux (x :: seen) xs

/-- Removes repeated elements, keeping the first occurrence of each. -/
def firstDedup (l : List String) : List String := firstDedupAux [] l

/-- Modelled from the spec (section 4.1): the parameter extractor. Distinct
parameter names referenced by placeholder tokens, in first-occurrence order. -/
def extract (template : String) : List String :=
  firstDedup (scanTokens template.data)

/-- Modelled from the spec (section 3, Parameter Values): a dynamically typed
scalar parameter value. Floats and list values are elided: no claim under
verification mentions them, and floating point is outside the embedding. -/
inductive ScalarValue where
  | str (s : String)
  | int (n : Int)
  | boolean (b : Bool)
  | null
deriving DecidableEq

/-- Modelled from the spec (section 4.3): the literal-safe encoding of a
scalar value. -/
def encodeScalar : ScalarValue → String
  | .str s => escapeString s
  | .int n => toString n
  | .boolean b => if b then "TRUE" else "FALSE"
  | .null => "NULL"

/-- One interpolation pass over the template, replacing each placeholder token
by the literal-safe encoding of its value; `none` when a referenced name has
no value. `fuel` bounds the recursion; every step consumes at least one
character, so fuel equal to the template length never runs out. -/
def interpGo (vals : String → Option ScalarValue) : Nat → List Char → Option (List Char)
  | _, [] => some []
  | 0, _ :: _ => none
  | fuel + 1, c :: cs =>
    match parseToken (c :: cs) with
    | some (n, rest) =>
      match vals (String.mk n) with
      | some v => (interpGo vals fuel rest).map (fun tail => (encodeScalar v).data ++ tail)
      | none => none
    | none => (interpGo vals fuel cs).map (fun tail => c :: tail)

/-- Modelled from the spec (sections 4.2-4.3; `backend/query_registry.py` is
absent from the tree): `interpolate(definition, values)`, substituting the
literal-safe encoding of each referenced value into the SQL template. -/
def interpolate (template : String) (vals : String → Option ScalarValue) : Option String :=
  (interpGo vals template.data.length template.data).map String.mk

/-- From `lence/config.py`: a data source configuration (`DataSource`). -/
structure DataSource where
  type : String
  path : String
  description : String
deriving DecidableEq

/-- From `lence/database.py`: the mutable state of `Database` — the `sources`
dict (insertion-ordered name-to-source mapping), the SQL statements executed
on the connection so far (modelling `conn.execute` calls), and the
`_registered_tables` set. -/
structure DbState where
  sources : List (String × DataSource)
  executedStatements : List String
  registeredTables : List String
deriving DecidableEq

/-- Python dict assignment `d[k] = v`: replaces the value of an existing key
in place, otherwise appends the new binding at the end. -/
def setAssoc : List (String × DataSource) → String → DataSource → List (String × DataSource)
  | [], n, v => [(n, v)]
  | (k, w) :: rest, n, v =>
    if k = n then (n, v) :: rest else (k, w) :: setAssoc rest n v

/-- Python dict lookup `d[k]` / `k in d` combined: the value bound to the key,
if any. -/
def lookupAssoc : List (String × DataSource) → String → Option DataSource
  | [], _ => none
  | (k, w) :: rest, n => if k = n then some w else lookupAssoc rest n

/-- Python `set.add`: membership-preserving insert. -/
def addIfAbsent (l : List String) (n : String) : List String :=
  if n ∈ l then l else l ++ [n]

/-- From `lence/database.py` lines 52-55: the f-string building the CSV view,
with the name and the resolved path embedded verbatim (no escaping), exactly
as written in the source including its indentation. -/
def viewSqlCsv (name path : String) : String :=
  "\n                CREATE OR REPLACE VIEW " ++ name ++ " AS\n                SELECT * FROM read_csv_auto(" ++ String.mk [sq] ++ path ++ String.mk [sq] ++ ")\n            "

/-- From `lence/database.py` lines 57-60: the f-string building the parquet
view, with the name and the resolved path embedded verbatim (no escaping). -/
def viewSqlParquet (name path : String) : String :=
  "\n                CREATE OR REPLACE VIEW " ++ name ++ " AS\n                SELECT * FROM read_parquet(" ++ String.mk [sq] ++ path ++ String.mk [sq] ++ ")\n            "

/-- A text contains `lit` as one closed single-quoted SQL string literal when
the literal encoding of `lit` — an opening quote, the value with embedded
quotes doubled, a closing quote — occurs in it as a contiguous substring. -/
def containsClosedLiteral (text lit : String) : Prop :=
  ∃ a b : List Char, text.data = a ++ (sq :: (doubleQuotes lit.data ++ [sq])) ++ b

/-- From `lence/database.py` `Database.register_source`: first mutates
`self.sources[name] = source`, then branches on the source type — executing
the CSV or parquet view statement and adding to `_registered_tables` — and
raises `ValueError` for any other type. The returned pair is the state after
the call together with its normal or exceptional outcome. Path resolution
against `base_dir` is elided: `source.path` stands for the resolved path. -/
def registerSource (st : DbState) (name : String) (src : DataSource) :
    DbState × Except String Unit :=
  let st1 : DbState := { st with sources := setAssoc st.sources name src }
  if src.type = "csv" then
    let st2 : DbState :=
      { st1 with executedStatements := st1.executedStatements ++ [viewSqlCsv name src.path] }
    ({ st2 with registeredTables := addIfAbsent st2.registeredTables name }, Except.ok ())
  else if src.type = "parquet" then
    let st2 : DbState :=
      { st1 with executedStatements := st1.executedStatements ++ [viewSqlParquet name src.path] }
    ({ st2 with registeredTables := addIfAbsent st2.registeredTables name }, Except.ok ())
  else
    (st1, Except.error ("Unsupported source type: " ++ src.type))

/-- From `lence/database.py` `Database.list_sources`: name, type and
description of every registered source, in mapping order. -/
def listSources (st : DbState) : List (String × String × String) :=
  st.sources.map (fun p => (p.1, p.2.type, p.2.description))

/-- The key set of the `sources` dict, as used by the membership checks
`request.source not in db.sources` in the route handlers. -/
def sourceNames (st : DbState) : List String :=
  st.sources.map Prod.fst

/-- From `lence/database.py` `Database.execute_query`: shapes a raw engine
result — column description pairs and row-major rows — into the response
record, with `row_count` computed as the length of `data`. -/
structure QueryResponse (α : Type) where
  columns : List (String × String)
  data : List (List α)
  row_count : Nat
deriving DecidableEq

/-- From `lence/database.py` lines 76-91: columns from the cursor description,
data as the list of rows, `row_count = len(data)`. -/
def shapeResult {α : Type} (desc : List (String × String)) (rows : List (List α)) :
    QueryResponse α :=
  { columns := desc, data := rows, row_count := rows.length }

/-- From `lence/database.py` `Database.execute_query`: runs the SQL on the
engine (an oracle from SQL text to a raw description-and-rows result or an
engine error) and shapes the result. -/
def executeQuery {α : Type}
    (engine : String → Except String (List (String × String) × List (List α)))
    (sql : String) : Except String (QueryResponse α) :=
  match engine sql with
  | Except.error msg => Except.error msg
  | Except.ok (desc, rows) => Except.ok (shapeResult desc rows)

/-- From `routes/query.py` / `backend/sources.py`: the body of a raw /query
request — a source name and inline SQL text supplied by the client. -/
structure RawRequest where
  source : String
  sql : String
deriving DecidableEq

/-- The structured failures raised by the handlers (each an `HTTPException`
in the code, with the corresponding detail). -/
inductive QueryError where
  | notFound (page query : String)
  | unknownSource (source : String)
  | missingParams (names : List String)
  | unexpectedParams (names : List String)
  | onlySelectAllowed (sql : String)
  | interpolationFailed
  | queryFailed (msg : String)
deriving DecidableEq

/-- The parameter names an error message reports to the caller. -/
def errNames : QueryError → List String
  | .missingParams ns => ns
  | .unexpectedParams ns => ns
  | _ => []

/-- From `src/lence/routes/query.py` lines 45-68, the handler of POST /query
mounted by `create_app`: checks that the source is registered, then hands the
client-supplied SQL text to `db.execute_query`. `Except.ok sql` means the SQL
text `sql` is passed to the database for execution. -/
def routesExecuteQuery (sources : List String) (req : RawRequest) :
    Except QueryError String :=
  if req.source ∈ sources then Except.ok req.sql
  else Except.error (.unknownSource req.source)

/-- Python `\s` (ASCII range): space, tab, newline, carriage return, vertical
tab, form feed. -/
def isPySpace (c : Char) : Bool :=
  c = ' ' || c = Char.ofNat 9 || c = Char.ofNat 10 || c = Char.ofNat 13 ||
  c = Char.ofNat 11 || c = Char.ofNat 12

/-- Drops the longest run of whitespace at the head of the input. -/
def dropSpaces : List Char → List Char
  | [] => []
  | c :: cs => if isPySpace c then dropSpaces cs else c :: cs

/-- From `src/lence/backend/sources.py` line 77: whether
`re.match(r'(caret)(backslash-s-star)SELECT(backslash-s)', sql, re.IGNORECASE)`
succeeds — optional leading whitespace, the word SELECT in any case, then one
whitespace character. -/
def isSelectQuery (sql : String) : Bool :=
  match dropSpaces sql.data with
  | c1 :: c2 :: c3 :: c4 :: c5 :: c6 :: c7 :: _ =>
    c1.toLower = 's' && c2.toLower = 'e' && c3.toLower = 'l' && c4.toLower = 'e' &&
    c5.toLower = 'c' && c6.toLower = 't' && isPySpace c7
  | _ => false

/-- From `src/lence/backend/sources.py` lines 60-94, the legacy POST /query
handler: checks that the source is registered, rejects non-SELECT SQL, then
hands the SQL to the database. `Except.ok sql` means the SQL text is passed to
the database for execution. -/
def backendExecuteQueryLegacy (sources : List String) (req : RawRequest) :
    Except QueryError String :=
  if req.source ∈ sources then
    if isSelectQuery req.sql then Except.ok req.sql
    else Except.error (.onlySelectAllowed req.sql)
  else Except.error (.unknownSource req.source)

/-- From `src/lence/app.py` lines 77-78: `create_app` mounts the query router
unconditionally — `app.include_router(query_router, prefix=...)` with no mode
check — so the handler the running app exposes at POST /api/query is
`execute_query` of `routes/query.py`, in every deployment. No edit-mode
configuration exists anywhere under `src/`. -/
def mountedQueryHandler : List String → RawRequest → Except QueryError String :=
  routesExecuteQuery

/-- From the spec's data model (section 3; the registry module
`backend/query_registry.py` is absent from the tree): a query definition. -/
structure QueryDef where
  page : String
  name : String
  source : String
  sql : String
  params : List String
deriving DecidableEq

/-- From `src/lence/backend/sources.py` `SecureQueryRequest`: page, query
name, and parameter values. -/
structure SecureRequest where
  page : String
  query : String
  params : List (String × ScalarValue)
deriving DecidableEq

/-- Modelled from the spec (section 4.2; `backend/query_registry.py` is absent
from the tree): `registry.get(page, name)` — exact-match lookup in the
registry mapping, `none` when no definition exists for the key. Total: lookup
of an unknown key returns `none` rather than failing. -/
def lookupReg : List ((String × String) × QueryDef) → String → String → Option QueryDef
  | [], _, _ => none
  | (k, d) :: rest, p, n => if k = (p, n) then some d else lookupReg rest p n

/-- Request parameter lookup by name. -/
def lookupVal : List (String × ScalarValue) → String → Option ScalarValue
  | [], _ => none
  | (k, v) :: rest, n => if k = n then some v else lookupVal rest n

/-- From `src/lence/backend/sources.py` line 129: the declared parameters the
request does not supply. -/
def missingOf (q : QueryDef) (req : SecureRequest) : List String :=
  q.params.filter (fun p => !((req.params.map Prod.fst).contains p))

/-- From `src/lence/backend/sources.py` line 136: the supplied parameters the
definition does not declare. -/
def extraOf (q : QueryDef) (req : SecureRequest) : List String :=
  (req.params.map Prod.fst).filter (fun p => !(q.params.contains p))

/-- From `src/lence/backend/sources.py` lines 97-157, the POST /query/v2
handler `execute_query_secure`, in source order: registry lookup (absent is
404 NotFound), source existence, missing parameters (raised on its own, first),
extra parameters (raised on its own, second), interpolation, execution with
engine errors reported as query failures. -/
def execSecure {α : Type} (reg : List ((String × String) × QueryDef))
    (sources : List String)
    (engine : String → Except String (List (String × String) × List (List α)))
    (req : SecureRequest) : Except QueryError (QueryResponse α) :=
  match lookupReg reg req.page req.query with
  | none => Except.error (.notFound req.page req.query)
  | some q =>
    if q.source ∈ sources then
      if missingOf q req ≠ [] then Except.error (.missingParams (missingOf q req))
      else if extraOf q req ≠ [] then Except.error (.unexpectedParams (extraOf q req))
      else
        match interpolate q.sql (lookupVal req.params) with
        | none => Except.error .interpolationFailed
        | some sql =>
          match engine sql with
          | Except.error msg => Except.error (.queryFailed msg)
          | Except.ok (desc, rows) => Except.ok (shapeResult desc rows)
    else Except.error (.unknownSource q.source)

/-! ## Theorems -/

theorem parseLitBody_step_ne (acc : List Char) (c : Char) (rest : List Char) (h : ¬ c = sq) :
    parseLitBody acc (c :: rest) = parseLitBody (acc ++ [c]) rest := by
  rw [parseLitBody.eq_def]
  simp [h]

theorem parseLitBody_step_two (acc rest : List Char) :
    parseLitBody acc (sq :: sq :: rest) = parseLitBody (acc ++ [sq]) rest := by
  rw [parseLitBody.eq_def]
  simp

theorem parseLitBody_doubleQuotes (s : List Char) :
    ∀ acc, parseLitBody acc (doubleQuotes s ++ [sq]) = some (acc ++ s, []) := by
  induction s with
  | nil => intro acc; simp [doubleQuotes, parseLitBody]
  | cons c cs ih =>
    intro acc
    by_cases h : c = sq
    · subst h
      have hd : doubleQuotes (sq :: cs) = sq :: sq :: doubleQuotes cs := by
        simp [doubleQuotes]
      rw [hd, List.cons_append, List.cons_append, parseLitBody_step_two, ih]
      simp
    · have hd : doubleQuotes (c :: cs) = c :: doubleQuotes cs := by
        simp [doubleQuotes, h]
      rw [hd, List.cons_append, parseLitBody_step_ne _ _ _ h, ih]
      simp

/-- Round trip: the literal-safe encoding of any string parses back, as one
closed SQL string literal, to exactly that string with nothing left over. -/
theorem parseSqlLiteral_escapeString (v : String) :
    parseSqlLiteral (escapeString v).data = some (v.data, []) := by
  show parseSqlLiteral (sq :: (doubleQuotes v.data ++ [sq])) = some (v.data, [])
  simp [parseSqlLiteral, parseLitBody_doubleQuotes]

theorem firstDedupAux_sublist (l : List String) :
    ∀ seen, (firstDedupAux seen l).Sublist l := by
  induction l with
  | nil => intro seen; simp [firstDedupAux]
  | cons x xs ih =>
    intro seen
    by_cases h : x ∈ seen
    · simpa [firstDedupAux, h] using (ih seen).cons x
    · simpa [firstDedupAux, h] using (ih (x :: seen)).cons₂ x

theorem firstDedupAux_mem (l : List String) :
    ∀ seen x, x ∈ firstDedupAux seen l ↔ x ∈ l ∧ x ∉ seen := by
  induction l with
  | nil => intro seen x; simp [firstDedupAux]
  | cons y ys ih =>
    intro seen x
    by_cases h : y ∈ seen
    · simp only [firstDedupAux, if_pos h, ih, List.mem_cons]
      constructor
      · rintro ⟨hx, hs⟩
        exact ⟨Or.inr hx, hs⟩
      · rintro ⟨hx | hx, hs⟩
        · subst hx; exact absurd h hs
        · exact ⟨hx, hs⟩
    · simp only [firstDedupAux, if_neg h, List.mem_cons, ih]
      constructor
      · rintro (hx | ⟨hx, hs⟩)
        · subst hx; exact ⟨Or.inl rfl, h⟩
        · exact ⟨Or.inr hx, fun hc => hs (Or.inr hc)⟩
      · rintro ⟨hx | hx, hs⟩
        · exact Or.inl hx
        · by_cases hxy : x = y
          · exact Or.inl hxy
          · exact Or.inr ⟨hx, fun hc => hc.elim hxy hs⟩

theorem firstDedupAux_nodup (l : List String) :
    ∀ seen, (firstDedupAux seen l).Nodup := by
  induction l with
  | nil => intro seen; simp [firstDedupAux]
  | cons x xs ih =>
    intro seen
    by_cases h : x ∈ seen
    · simpa [firstDedupAux, h] using ih seen
    · simp only [firstDedupAux, if_neg h, List.nodup_cons]
      refine ⟨fun hc => ?_, ih (x :: seen)⟩
      exact ((firstDedupAux_mem xs (x :: seen) x).mp hc).2 (List.mem_cons_self x seen)

/-- C4: the parameter extractor returns the distinct parameter names
referenced by placeholder tokens, each exactly once (no duplicates), in
first-occurrence order (a sublist of the raw occurrence sequence containing
every occurring name); a template with no placeholder tokens yields the empty
sequence. -/
theorem C4_extractor_distinct_first_occurrence (t : String) :
    (extract t).Nodup ∧
    (extract t).Sublist (scanTokens t.data) ∧
    (∀ n, n ∈ extract t ↔ n ∈ scanTokens t.data) ∧
    (scanTokens t.data = [] → extract t = []) := by
  refine ⟨firstDedupAux_nodup _ [], firstDedupAux_sublist _ [], fun n => ?_, fun h => ?_⟩
  · rw [extract, firstDedup, firstDedupAux_mem]
    simp
  · rw [extract, firstDedup, h]
    rfl

/-- Witness for C4: the spec's two concrete examples, evaluated. -/
theorem C4_extractor_witness :
    extract "no placeholders" = [] ∧
    extract "SELECT * FROM t WHERE id = $\x7binputs.id.value\x7d" = ["id"] :=
  ⟨(C4_extractor_distinct_first_occurrence "no placeholders").2.2.2 (by decide), by decide⟩

/-- C2: interpolating a string parameter value substitutes it wrapped in
single quotes with every embedded single quote doubled, so the produced text
is a syntactically closed SQL string literal (the SQL lexer consumes it
entirely as one terminated literal, recovering exactly the value); in
particular interpolating O'Brien yields 'O''Brien' verbatim. -/
theorem C2_string_interpolation_closed_literal :
    (∀ v : String, parseSqlLiteral (escapeString v).data = some (v.data, [])) ∧
    escapeString (String.mk ['O', sq, 'B', 'r', 'i', 'e', 'n']) =
      String.mk [sq, 'O', sq, sq, 'B', 'r', 'i', 'e', 'n', sq] ∧
    interpolate "$\x7binputs.name.value\x7d"
        (fun n => if n = "name" then some (.str (String.mk ['O', sq, 'B', 'r', 'i', 'e', 'n'])) else none) =
      some (String.mk [sq, 'O', sq, sq, 'B', 'r', 'i', 'e', 'n', sq]) :=
  ⟨parseSqlLiteral_escapeString, by decide, by decide⟩

/-- C1 counterexample: in the app assembled by `create_app` — which mounts the
query router unconditionally, there being no edit-mode configuration in the
code — a request carrying inline client SQL for a registered source is not
ignored: the handler passes the client-supplied text (here a DROP statement)
to the database for execution. This refutes the claim that in normal mode no
request can cause client-supplied SQL to be executed. -/
theorem C1_counterexample :
    mountedQueryHandler ["orders"] ⟨"orders", "DROP TABLE orders"⟩ =
      Except.ok "DROP TABLE orders" := by
  rfl

/-- C1 amended: the app assembled by `create_app` mounts the raw query
endpoint unconditionally; whenever the named source is registered, the handler
passes the client-supplied SQL text to the database for execution, in every
mode — no edit-mode gate exists in the code. -/
theorem C1_amended_raw_sql_reachable (sources : List String) (req : RawRequest)
    (h : req.source ∈ sources) :
    mountedQueryHandler sources req = Except.ok req.sql := by
  simp [mountedQueryHandler, routesExecuteQuery, h]

/-- Witness for the amended C1. -/
theorem C1_amended_raw_sql_reachable_witness :
    mountedQueryHandler ["sales"] ⟨"sales", "DELETE FROM sales"⟩ =
      Except.ok "DELETE FROM sales" :=
  C1_amended_raw_sql_reachable ["sales"] ⟨"sales", "DELETE FROM sales"⟩ (by decide)

/-- C10: the two raw /query handlers are not equivalent: for a request whose
source is registered and whose SQL is a DROP statement, the handler in
`routes/query.py` passes the SQL on to the database, while the handler in
`backend/sources.py` rejects it with a validation error before execution. -/
theorem C10_raw_handlers_differ :
    routesExecuteQuery ["events"] ⟨"events", "DROP TABLE events"⟩ =
      Except.ok "DROP TABLE events" ∧
    backendExecuteQueryLegacy ["events"] ⟨"events", "DROP TABLE events"⟩ =
      Except.error (.onlySelectAllowed "DROP TABLE events") := by
  exact ⟨rfl, rfl⟩

/-- C5: registry lookup of an unregistered `(page, name)` key returns absent
(`none`) — it is total, equivalently absent exactly when no definition is
registered for the key — and a registry-mode request for such a key fails with
NotFound and nothing else. -/
theorem C5_unknown_key_not_found :
    (∀ reg (p n : String), lookupReg reg p n = none ↔ ∀ d, ((p, n), d) ∉ reg) ∧
    (∀ (α : Type) reg sources
        (engine : String → Except String (List (String × String) × List (List α)))
        (req : SecureRequest),
      lookupReg reg req.page req.query = none →
      execSecure reg sources engine req = Except.error (.notFound req.page req.query)) := by
  constructor
  · intro reg p n
    induction reg with
    | nil => simp [lookupReg]
    | cons hd rest ih =>
      obtain ⟨k, d⟩ := hd
      by_cases hk : k = (p, n)
      · subst hk
        rw [lookupReg]
        simp only [if_pos rfl]
        constructor
        · intro h
          exact absurd h (by simp)
        · intro h
          exact absurd (List.mem_cons_self _ _) (h d)
      · rw [lookupReg]
        simp only [if_neg hk]
        rw [ih]
        constructor
        · intro h d2 hmem
          rcases List.mem_cons.mp hmem with he | hm
          · exact hk ((congrArg Prod.fst he).symm)
          · exact h d2 hm
        · intro h d2 hm
          exact h d2 (List.mem_cons_of_mem _ hm)
  · intro α reg sources engine req h
    simp [execSecure, h]

/-- Witness for C5: a request against an empty registry fails with NotFound. -/
theorem C5_unknown_key_not_found_witness :
    execSecure ([] : List ((String × String) × QueryDef)) ["s"]
        (fun _ => (Except.error "engine" :
          Except String (List (String × String) × List (List Nat))))
        ⟨"pg", "nm", []⟩ =
      Except.error (.notFound "pg" "nm") :=
  C5_unknown_key_not_found.2 Nat [] ["s"] _ ⟨"pg", "nm", []⟩ rfl

/-- C6: registering a source whose kind is neither csv nor parquet raises a
configuration error from the `register_source` call itself, at registration
time — the unsupported-kind failure is the call's own outcome, not deferred to
query time. -/
theorem C6_unsupported_kind_fails_at_registration
    (st : DbState) (name : String) (src : DataSource)
    (h1 : src.type ≠ "csv") (h2 : src.type ≠ "parquet") :
    (registerSource st name src).2 =
      Except.error ("Unsupported source type: " ++ src.type) := by
  simp [registerSource, h1, h2]

/-- Witness for C6. -/
theorem C6_unsupported_kind_fails_at_registration_witness :
    (registerSource ⟨[], [], []⟩ "j" ⟨"json", "d.json", ""⟩).2 =
      Except.error ("Unsupported source type: " ++ "json") :=
  C6_unsupported_kind_fails_at_registration ⟨[], [], []⟩ "j" ⟨"json", "d.json", ""⟩
    (by decide) (by decide)

/-- Unfolding of `execSecure` once the registry lookup has succeeded. -/
theorem execSecure_some {α : Type} (reg : List ((String × String) × QueryDef))
    (sources : List String)
    (engine : String → Except String (List (String × String) × List (List α)))
    (req : SecureRequest) (q : QueryDef)
    (hl : lookupReg reg req.page req.query = some q) :
    execSecure reg sources engine req =
      if q.source ∈ sources then
        if missingOf q req ≠ [] then Except.error (.missingParams (missingOf q req))
        else if extraOf q req ≠ [] then Except.error (.unexpectedParams (extraOf q req))
        else
          match interpolate q.sql (lookupVal req.params) with
          | none => Except.error .interpolationFailed
          | some sql =>
            match engine sql with
            | Except.error msg => Except.error (.queryFailed msg)
            | Except.ok (desc, rows) => Except.ok (shapeResult desc rows)
      else Except.error (.unknownSource q.source) := by
  simp [execSecure, hl]

/-- C7: every successfully executed query — shaped by `Database.execute_query`
and returned unchanged by the handlers — has `row_count` equal to the length
of its row-major `data` sequence. -/
theorem C7_row_count_equals_data_length :
    (∀ (α : Type) (engine : String → Except String (List (String × String) × List (List α)))
        (sql : String) (res : QueryResponse α),
      executeQuery engine sql = Except.ok res → res.row_count = res.data.length) ∧
    (∀ (α : Type) reg sources
        (engine : String → Except String (List (String × String) × List (List α)))
        (req : SecureRequest) (res : QueryResponse α),
      execSecure reg sources engine req = Except.ok res → res.row_count = res.data.length) := by
  constructor
  · intro α engine sql res h
    unfold executeQuery at h
    cases he : engine sql with
    | error msg => rw [he] at h; exact Except.noConfusion h
    | ok pr =>
      obtain ⟨desc, rows⟩ := pr
      rw [he] at h
      cases h
      rfl
  · intro α reg sources engine req res h
    cases hl : lookupReg reg req.page req.query with
    | none => simp [execSecure, hl] at h
    | some q =>
      rw [execSecure_some reg sources engine req q hl] at h
      by_cases hs : q.source ∈ sources
      · rw [if_pos hs] at h
        by_cases hm : missingOf q req ≠ []
        · rw [if_pos hm] at h; exact Except.noConfusion h
        · rw [if_neg hm] at h
          by_cases hx : extraOf q req ≠ []
          · rw [if_pos hx] at h; exact Except.noConfusion h
          · rw [if_neg hx] at h
            cases hi : interpolate q.sql (lookupVal req.params) with
            | none => simp only [hi] at h; exact Except.noConfusion h
            | some sql2 =>
              simp only [hi] at h
              cases he : engine sql2 with
              | error msg => simp only [he] at h; exact Except.noConfusion h
              | ok pr =>
                obtain ⟨desc, rows⟩ := pr
                simp only [he] at h
                cases h
                rfl
      · rw [if_neg hs] at h; exact Except.noConfusion h

/-- Witness for C7: a two-row result has row_count 2. -/
theorem C7_row_count_equals_data_length_witness :
    (shapeResult [("x", "INTEGER")] [[(1 : Int)], [2]]).row_count =
      (shapeResult [("x", "INTEGER")] [[(1 : Int)], [2]]).data.length :=
  C7_row_count_equals_data_length.1 Int
    (fun _ => Except.ok ([("x", "INTEGER")], [[1], [2]])) "SELECT 1" _ rfl

theorem lookupAssoc_setAssoc (l : List (String × DataSource)) (n : String) (v : DataSource) :
    lookupAssoc (setAssoc l n v) n = some v := by
  induction l with
  | nil => simp [setAssoc, lookupAssoc]
  | cons hd rest ih =>
    obtain ⟨k, w⟩ := hd
    by_cases hk : k = n
    · simp [setAssoc, hk, lookupAssoc]
    · simp [setAssoc, hk, lookupAssoc, ih]

theorem setAssoc_self_mem (l : List (String × DataSource)) (n : String) (v : DataSource) :
    (n, v) ∈ setAssoc l n v := by
  induction l with
  | nil => simp [setAssoc]
  | cons hd rest ih =>
    obtain ⟨k, w⟩ := hd
    by_cases hk : k = n
    · simp [setAssoc, hk]
    · simp only [setAssoc, if_neg hk, List.mem_cons]
      exact Or.inr ih

/-- C8: `register_source` is not atomic on error: for a source whose type is
neither csv nor parquet the call raises ValueError, yet the name is present in
the `sources` mapping afterwards — looked up with the given source, listed by
`list_sources`, and accepted by the query endpoint's source-existence check —
because the mapping is mutated before the kind is validated. -/
theorem C8_register_source_not_atomic
    (st : DbState) (name : String) (src : DataSource) (sql : String)
    (h1 : src.type ≠ "csv") (h2 : src.type ≠ "parquet") :
    (registerSource st name src).2 =
      Except.error ("Unsupported source type: " ++ src.type) ∧
    lookupAssoc (registerSource st name src).1.sources name = some src ∧
    (name, src.type, src.description) ∈ listSources (registerSource st name src).1 ∧
    routesExecuteQuery (sourceNames (registerSource st name src).1) ⟨name, sql⟩ =
      Except.ok sql := by
  have hreg : registerSource st name src =
      ({ st with sources := setAssoc st.sources name src },
        Except.error ("Unsupported source type: " ++ src.type)) := by
    simp [registerSource, h1, h2]
  refine ⟨by rw [hreg], ?_, ?_, ?_⟩
  · rw [hreg]
    exact lookupAssoc_setAssoc _ _ _
  · rw [hreg]
    exact List.mem_map.mpr ⟨(name, src), setAssoc_self_mem _ _ _, rfl⟩
  · rw [hreg]
    have hm : name ∈ sourceNames { st with sources := setAssoc st.sources name src } :=
      List.mem_map.mpr ⟨(name, src), setAssoc_self_mem _ _ _, rfl⟩
    simp [routesExecuteQuery, hm]

/-- Witness for C8: after a failed registration of a json source, the raw
query endpoint accepts the source name. -/
theorem C8_register_source_not_atomic_witness :
    routesExecuteQuery
        (sourceNames (registerSource ⟨[], [], []⟩ "j2" ⟨"json", "d.json", ""⟩).1)
        ⟨"j2", "SELECT 1"⟩ = Except.ok "SELECT 1" :=
  (C8_register_source_not_atomic ⟨[], [], []⟩ "j2" ⟨"json", "d.json", ""⟩ "SELECT 1"
    (by decide) (by decide)).2.2.2

/-- C3 counterexample: with declared params a, b and supplied params b, c, the
service's single failure is MissingParams naming only a; the extra name c is
not part of that failure, refuting the claim that both sets are reported
together in one failure. -/
theorem C3_counterexample :
    execSecure [(("p", "q"), ⟨"p", "q", "s", "SELECT 1", ["a", "b"]⟩)] ["s"]
        (fun _ => (Except.error "engine" :
          Except String (List (String × String) × List (List Nat))))
        ⟨"p", "q", [("b", .null), ("c", .null)]⟩ =
      Except.error (.missingParams ["a"]) ∧
    "c" ∉ errNames (QueryError.missingParams ["a"]) :=
  ⟨rfl, by decide⟩

/-- C3 amended: when the parameter-name sets differ in both directions the
service fails naming only the missing names; the extra names are reported by a
separate, second check that is reached only when nothing is missing. -/
theorem C3_amended_missing_reported_first
    (α : Type) (reg : List ((String × String) × QueryDef)) (sources : List String)
    (engine : String → Except String (List (String × String) × List (List α)))
    (req : SecureRequest) (q : QueryDef)
    (hl : lookupReg reg req.page req.query = some q)
    (hs : q.source ∈ sources) :
    (missingOf q req ≠ [] →
      execSecure reg sources engine req =
        Except.error (.missingParams (missingOf q req))) ∧
    (missingOf q req = [] → extraOf q req ≠ [] →
      execSecure reg sources engine req =
        Except.error (.unexpectedParams (extraOf q req))) := by
  constructor
  · intro hm
    simp [execSecure, hl, hs, hm]
  · intro hm hx
    simp [execSecure, hl, hs, hm, hx]

/-- Witness for the amended C3. -/
theorem C3_amended_missing_reported_first_witness :
    execSecure [(("p2", "q2"), ⟨"p2", "q2", "s2", "SELECT 2", ["a", "b"]⟩)] ["s2"]
        (fun _ => (Except.error "engine" :
          Except String (List (String × String) × List (List Nat))))
        ⟨"p2", "q2", [("b", .null), ("c", .null)]⟩ =
      Except.error (.missingParams (missingOf ⟨"p2", "q2", "s2", "SELECT 2", ["a", "b"]⟩
        ⟨"p2", "q2", [("b", .null), ("c", .null)]⟩)) :=
  (C3_amended_missing_reported_first Nat
    [(("p2", "q2"), ⟨"p2", "q2", "s2", "SELECT 2", ["a", "b"]⟩)] ["s2"]
    (fun _ => (Except.error "engine" :
      Except String (List (String × String) × List (List Nat))))
    ⟨"p2", "q2", [("b", .null), ("c", .null)]⟩
    ⟨"p2", "q2", "s2", "SELECT 2", ["a", "b"]⟩ rfl (by decide)).1 (by decide)

theorem count_doubleQuotes (cs : List Char) :
    (doubleQuotes cs).count sq = 2 * cs.count sq := by
  induction cs with
  | nil => simp [doubleQuotes]
  | cons c cs ih =>
    by_cases h : c = sq
    · subst h
      simp [doubleQuotes, List.count_cons, ih]
      omega
    · simp [doubleQuotes, h, List.count_cons, ih, Ne.symm h]

theorem not_containsClosedLiteral_of_count (text lit : String)
    (hc : text.data.count sq = lit.data.count sq + 2)
    (hp : sq ∈ lit.data) :
    ¬ containsClosedLiteral text lit := by
  rintro ⟨a, b, h⟩
  have hcnt := congrArg (fun l => l.count sq) h
  simp only [List.count_append, List.count_cons, count_doubleQuotes, beq_self_eq_true,
    if_true] at hcnt
  rw [hc] at hcnt
  have hpos : 0 < lit.data.count sq := List.count_pos_iff.mpr hp
  omega

/-- C9: the CREATE OR REPLACE VIEW statement built by `register_source` embeds
the source's file path between single quotes verbatim, with no quote escaping
(the path occurs contiguously between one pair of quote characters); for every
path containing a single quote — source names being quote-free — the generated
SQL does not contain the path as one closed single-quoted string literal. -/
theorem C9_view_sql_path_unescaped (name path : String)
    (hn : sq ∉ name.data) (hp : sq ∈ path.data) :
    (∃ a b : List Char,
      (viewSqlCsv name path).data = a ++ [sq] ++ path.data ++ [sq] ++ b) ∧
    ¬ containsClosedLiteral (viewSqlCsv name path) path ∧
    ¬ containsClosedLiteral (viewSqlParquet name path) path := by
  have h0 : name.data.count sq = 0 := List.count_eq_zero.mpr hn
  have e1 : ("\n                CREATE OR REPLACE VIEW " : String).data.count sq = 0 := by
    decide
  have e2 : (" AS\n                SELECT * FROM read_csv_auto(" : String).data.count sq = 0 := by
    decide
  have e2p : (" AS\n                SELECT * FROM read_parquet(" : String).data.count sq = 0 := by
    decide
  have e3 : ((")\n            " : String)).data.count sq = 0 := by decide
  have e4 : (String.mk [sq]).data.count sq = 1 := by decide
  refine ⟨?_, ?_, ?_⟩
  · refine ⟨("\n                CREATE OR REPLACE VIEW " ++ name ++
      " AS\n                SELECT * FROM read_csv_auto(").data, (")\n            " : String).data, ?_⟩
    simp [viewSqlCsv, String.data_append, List.append_assoc]
  · refine not_containsClosedLiteral_of_count _ _ ?_ hp
    simp only [viewSqlCsv, String.data_append, List.count_append]
    rw [h0, e1, e2, e3, e4]
    omega
  · refine not_containsClosedLiteral_of_count _ _ ?_ hp
    simp only [viewSqlParquet, String.data_append, List.count_append]
    rw [h0, e1, e2p, e3, e4]
    omega

/-- Witness for C9: a path containing a quote is not recoverable as one closed
literal from the generated view statement. -/
theorem C9_view_sql_path_unescaped_witness :
    sq ∈ (String.mk ['d', sq, 'x']).data ∧
    ¬ containsClosedLiteral (viewSqlCsv "t" (String.mk ['d', sq, 'x']))
        (String.mk ['d', sq, 'x']) :=
  ⟨by decide, (C9_view_sql_path_unescaped "t" (String.mk ['d', sq, 'x'])
    (by decide) (by decide)).2.1⟩

end Lence
